import Mathlib

/-!
# Verification of `fix_sqlx_syntax.py`

Shallow embedding of the rewrite script `src/fix_sqlx_syntax.py`.
The script performs two regex substitutions on a text buffer:

* Step 1: pattern `(sqlx::query\(\s*r#"[^"]*"#),\s*(\w+)\s*\)` replaced by
  `\1)\n        .bind(\2)` (flags MULTILINE and DOTALL are inert: the
  pattern contains no `^`, `$` or `.`).
* Step 2: pattern `\)\s*\n\s*\)\s*\n\s*\.(fetch_(?:one|all))` replaced by
  `)\n        .\1`.

and then reports `fixed_content.count('.bind(')`.

Both regexes are backtracking-free once analysed: every starred class is
disjoint from the literal that follows it, so each pattern compiles to a
deterministic left-to-right scanner.  `\s` and `\w` are modelled over the
ASCII range (the file being rewritten is ASCII Rust source).
Buffers are `List Char`; `re.sub` becomes a structural scan that, at each
position, either replaces a match and resumes after it or copies one
character.

The `__main__` block (backup copy, then in-place rewrite) is modelled as a
sequence of states of a string-indexed file store.
-/

abbrev Str := List Char

/-- Python `\s` over the ASCII range. -/
def isSpace (c : Char) : Bool :=
  c = ' ' || c = '\t' || c = '\n' || c = '\r' || c = '\x0b' || c = '\x0c'

/-- Python `\w` over the ASCII range. -/
def isWord (c : Char) : Bool :=
  c.isAlphanum || c = '_'

/-- Match a literal pattern at the head of the subject, returning the rest. -/
def matchLit : Str → Str → Option Str
  | [], s => some s
  | _ :: _, [] => none
  | p :: ps, c :: cs => if p = c then matchLit ps cs else none

/-- The literal head of the Step-1 pattern: `sqlx::query(`. -/
def qlit : Str := ['s', 'q', 'l', 'x', ':', ':', 'q', 'u', 'e', 'r', 'y', '(']

/-- Opening fence of the raw string: `r#"`. -/
def rq : Str := ['r', '#', '"']

/-- Closing fence of the raw string: `"#`. -/
def cq : Str := ['"', '#']

/-- The eight-space indentation used by both replacement templates. -/
def indentStr : Str := [' ', ' ', ' ', ' ', ' ', ' ', ' ', ' ']

/-- The marker substring counted at the end: `.bind(`. -/
def bindPat : Str := ['.', 'b', 'i', 'n', 'd', '(']

/-- Literal `.fetch_` of the Step-2 pattern. -/
def dotFetch : Str := ['.', 'f', 'e', 't', 'c', 'h', '_']

/-- Group-1 stem of the Step-2 pattern: `fetch_`. -/
def fet : Str := ['f', 'e', 't', 'c', 'h', '_']

def oneLit : Str := ['o', 'n', 'e']

def allLit : Str := ['a', 'l', 'l']

/-- Deterministic compilation of the Step-1 regex
`(sqlx::query\(\s*r#"[^"]*"#),\s*(\w+)\s*\)` at one position.
Returns `(group 1, group 2, rest after the match)` on success.
Each starred class (`\s`, `[^"]`, `\w`) is disjoint from the literal that
follows it in the pattern, so greedy matching with backtracking reduces to
maximal-run scanning. -/
def matchP1 (s : Str) : Option (Str × Str × Str) :=
  match matchLit qlit s with
  | none => none
  | some s1 =>
    let ws1 := s1.takeWhile isSpace
    let s2 := s1.dropWhile isSpace
    match matchLit rq s2 with
    | none => none
    | some s3 =>
      let body := s3.takeWhile (fun c => c != '"')
      let s4 := s3.dropWhile (fun c => c != '"')
      match matchLit cq s4 with
      | none => none
      | some s5 =>
        match matchLit [','] s5 with
        | none => none
        | some s6 =>
          let s7 := s6.dropWhile isSpace
          let param := s7.takeWhile isWord
          let s8 := s7.dropWhile isWord
          if param = [] then none
          else
            let s9 := s8.dropWhile isSpace
            match matchLit [')'] s9 with
            | none => none
            | some s10 => some (qlit ++ ws1 ++ rq ++ body ++ cq, param, s10)

/-- Replacement suffix built by `replace_query`:
`)` + newline + eight spaces + `.bind(` + param + `)`. -/
def bindRepl (param : Str) : Str :=
  [')', '\n'] ++ indentStr ++ bindPat ++ param ++ [')']

theorem matchLit_length {p s r : Str} (h : matchLit p s = some r) :
    r.length + p.length = s.length := by
  induction p generalizing s with
  | nil =>
    cases h
    simp
  | cons q ps ih =>
    cases s with
    | nil => cases h
    | cons c cs =>
      by_cases hq : q = c
      · simp only [matchLit, if_pos hq] at h
        have := ih h
        simp only [List.length_cons]
        omega
      · simp [matchLit, hq] at h

theorem length_dropWhile_le (p : Char → Bool) (s : Str) :
    (s.dropWhile p).length ≤ s.length := by
  induction s with
  | nil => simp [List.dropWhile]
  | cons c cs ih =>
    simp only [List.dropWhile]
    by_cases h : p c
    · simp only [h]
      simp only [List.length_cons]
      omega
    · simp [h]

theorem matchP1_length {s : Str} {t : Str × Str × Str} (h : matchP1 s = some t) :
    t.2.2.length < s.length := by
  unfold matchP1 at h
  cases h1 : matchLit qlit s with
  | none => rw [h1] at h; cases h
  | some s1 =>
    rw [h1] at h
    simp only at h
    cases h2 : matchLit rq (s1.dropWhile isSpace) with
    | none => rw [h2] at h; cases h
    | some s3 =>
      rw [h2] at h
      simp only at h
      cases h3 : matchLit cq (s3.dropWhile (fun c => c != '"')) with
      | none => rw [h3] at h; cases h
      | some s5 =>
        rw [h3] at h
        simp only at h
        cases h4 : matchLit [','] s5 with
        | none => rw [h4] at h; cases h
        | some s6 =>
          rw [h4] at h
          simp only at h
          by_cases h5 : (s6.dropWhile isSpace).takeWhile isWord = []
          · rw [if_pos h5] at h; cases h
          · rw [if_neg h5] at h
            cases h6 : matchLit [')']
                (((s6.dropWhile isSpace).dropWhile isWord).dropWhile isSpace) with
            | none => rw [h6] at h; cases h
            | some s10 =>
              rw [h6] at h
              cases h
              have l1 := matchLit_length h1
              have l2 := matchLit_length h2
              have l3 := matchLit_length h3
              have l4 := matchLit_length h4
              have l6 := matchLit_length h6
              have d1 := length_dropWhile_le isSpace s1
              have d2 := length_dropWhile_le (fun c => c != '"') s3
              have d3 := length_dropWhile_le isSpace s6
              have d4 := length_dropWhile_le isWord (s6.dropWhile isSpace)
              have d5 := length_dropWhile_le isSpace
                ((s6.dropWhile isSpace).dropWhile isWord)
              simp only [qlit, rq, cq, List.length_cons, List.length_nil] at *
              omega

/-- `re.sub` for the Step-1 rule, with explicit fuel (one unit per scanned
position) so the scanner is structurally recursive: at each position,
replace a match and resume after it, or copy one character on failure. -/
def sub1F : Nat → Str → Str
  | 0, s => s
  | fuel + 1, s =>
    match matchP1 s with
    | some t => t.1 ++ bindRepl t.2.1 ++ sub1F fuel t.2.2
    | none =>
      match s with
      | [] => []
      | c :: cs => c :: sub1F fuel cs

/-- `re.sub(pattern, replace_query, content)`: the buffer's length is always
enough fuel, since every step consumes at least one character. -/
def sub1 (s : Str) : Str := sub1F s.length s

theorem matchP1_nil : matchP1 [] = none := rfl

theorem sub1F_fuel (fuel : Nat) : ∀ s : Str, s.length ≤ fuel →
    sub1F fuel s = sub1F s.length s := by
  induction fuel using Nat.strong_induction_on with
  | _ fuel ih =>
    intro s hs
    cases fuel with
    | zero =>
      have hnil : s = [] := by
        cases s with
        | nil => rfl
        | cons c cs => simp at hs
      subst hnil
      rfl
    | succ fuel =>
      cases s with
      | nil => rfl
      | cons c cs =>
        simp only [List.length_cons] at hs
        cases h : matchP1 (c :: cs) with
        | some t =>
          have hlt := matchP1_length h
          simp only [List.length_cons] at hlt
          simp only [sub1F, List.length_cons, h]
          rw [ih fuel (by omega) t.2.2 (by omega),
            ih cs.length (by omega) t.2.2 (by omega)]
        | none =>
          simp only [sub1F, List.length_cons, h]
          rw [ih fuel (by omega) cs (by omega)]

theorem sub1_nil : sub1 [] = [] := rfl

theorem sub1_cons_none {c : Char} {cs : Str} (h : matchP1 (c :: cs) = none) :
    sub1 (c :: cs) = c :: sub1 cs := by
  simp only [sub1, List.length_cons, sub1F, h]

theorem sub1_some {s g p r : Str} (h : matchP1 s = some (g, p, r)) :
    sub1 s = g ++ bindRepl p ++ sub1 r := by
  have hlt := matchP1_length h
  cases s with
  | nil => rw [matchP1_nil] at h; cases h
  | cons c cs =>
    simp only [List.length_cons] at hlt
    simp only [sub1, List.length_cons, sub1F, h]
    rw [sub1F_fuel cs.length r (by omega)]

/-- Deterministic compilation of the Step-2 regex
`\)\s*\n\s*\)\s*\n\s*\.(fetch_(?:one|all))` at one position.
`\s*\n\s*` matches exactly a whitespace run containing at least one
newline, and the character after each run is forced (`)` resp. `.`), so
the backtracking search reduces to maximal-run scanning.
Returns `(group 1, rest after the match)` on success. -/
def matchP2 (s : Str) : Option (Str × Str) :=
  match matchLit [')'] s with
  | none => none
  | some s1 =>
    let w1 := s1.takeWhile isSpace
    let s2 := s1.dropWhile isSpace
    if w1.contains '\n' then
      match matchLit [')'] s2 with
      | none => none
      | some s3 =>
        let w2 := s3.takeWhile isSpace
        let s4 := s3.dropWhile isSpace
        if w2.contains '\n' then
          match matchLit dotFetch s4 with
          | none => none
          | some s5 =>
            match matchLit oneLit s5 with
            | some s6 => some (fet ++ oneLit, s6)
            | none =>
              match matchLit allLit s5 with
              | some s6 => some (fet ++ allLit, s6)
              | none => none
        else none
    else none

theorem matchP2_nil : matchP2 [] = none := rfl

theorem matchP2_length {s : Str} {t : Str × Str} (h : matchP2 s = some t) :
    t.2.length < s.length := by
  unfold matchP2 at h
  cases h1 : matchLit [')'] s with
  | none => rw [h1] at h; cases h
  | some s1 =>
    rw [h1] at h
    simp only at h
    by_cases hc1 : (s1.takeWhile isSpace).contains '\n'
    · rw [if_pos hc1] at h
      cases h2 : matchLit [')'] (s1.dropWhile isSpace) with
      | none => rw [h2] at h; cases h
      | some s3 =>
        rw [h2] at h
        simp only at h
        by_cases hc2 : (s3.takeWhile isSpace).contains '\n'
        · rw [if_pos hc2] at h
          cases h3 : matchLit dotFetch (s3.dropWhile isSpace) with
          | none => rw [h3] at h; cases h
          | some s5 =>
            rw [h3] at h
            simp only at h
            have l1 := matchLit_length h1
            have l2 := matchLit_length h2
            have l3 := matchLit_length h3
            have d1 := length_dropWhile_le isSpace s1
            have d2 := length_dropWhile_le isSpace s3
            cases h4 : matchLit oneLit s5 with
            | some s6 =>
              rw [h4] at h
              cases h
              have l4 := matchLit_length h4
              simp only [dotFetch, oneLit, List.length_cons, List.length_nil] at *
              omega
            | none =>
              rw [h4] at h
              cases h5 : matchLit allLit s5 with
              | none => rw [h5] at h; cases h
              | some s6 =>
                rw [h5] at h
                cases h
                have l5 := matchLit_length h5
                simp only [dotFetch, allLit, List.length_cons, List.length_nil] at *
                omega
        · rw [if_neg hc2] at h; cases h
    · rw [if_neg hc1] at h; cases h

/-- Replacement of the Step-2 rule: `)` + newline + eight spaces + `.` +
group 1. -/
def fetchRepl (g : Str) : Str :=
  [')', '\n'] ++ indentStr ++ ['.'] ++ g

/-- `re.sub` for the Step-2 rule, with explicit fuel (one unit per scanned
position) so the scanner is structurally recursive. -/
def sub2F : Nat → Str → Str
  | 0, s => s
  | fuel + 1, s =>
    match matchP2 s with
    | some t => fetchRepl t.1 ++ sub2F fuel t.2
    | none =>
      match s with
      | [] => []
      | c :: cs => c :: sub2F fuel cs

/-- `re.sub` for the Step-2 rule: the buffer's length is always enough
fuel. -/
def sub2 (s : Str) : Str := sub2F s.length s

theorem sub2F_fuel (fuel : Nat) : ∀ s : Str, s.length ≤ fuel →
    sub2F fuel s = sub2F s.length s := by
  induction fuel using Nat.strong_induction_on with
  | _ fuel ih =>
    intro s hs
    cases fuel with
    | zero =>
      have hnil : s = [] := by
        cases s with
        | nil => rfl
        | cons c cs => simp at hs
      subst hnil
      rfl
    | succ fuel =>
      cases s with
      | nil => rfl
      | cons c cs =>
        simp only [List.length_cons] at hs
        cases h : matchP2 (c :: cs) with
        | some t =>
          have hlt := matchP2_length h
          simp only [List.length_cons] at hlt
          simp only [sub2F, List.length_cons, h]
          rw [ih fuel (by omega) t.2 (by omega),
            ih cs.length (by omega) t.2 (by omega)]
        | none =>
          simp only [sub2F, List.length_cons, h]
          rw [ih fuel (by omega) cs (by omega)]

theorem sub2_nil : sub2 [] = [] := rfl

theorem sub2_cons_none {c : Char} {cs : Str} (h : matchP2 (c :: cs) = none) :
    sub2 (c :: cs) = c :: sub2 cs := by
  simp only [sub2, List.length_cons, sub2F, h]

theorem sub2_some {s r : Str} {g : Str} (h : matchP2 s = some (g, r)) :
    sub2 s = fetchRepl g ++ sub2 r := by
  have hlt := matchP2_length h
  cases s with
  | nil => rw [matchP2_nil] at h; cases h
  | cons c cs =>
    simp only [List.length_cons] at hlt
    simp only [sub2, List.length_cons, sub2F, h]
    rw [sub2F_fuel cs.length r (by omega)]

/-- Python `fixed_content.count('.bind(')`, with explicit fuel:
non-overlapping occurrences, scanning left to right. -/
def countBindF : Nat → Str → Nat
  | 0, _ => 0
  | fuel + 1, s =>
    match matchLit bindPat s with
    | some r => countBindF fuel r + 1
    | none =>
      match s with
      | [] => 0
      | _ :: cs => countBindF fuel cs

/-- Python `fixed_content.count('.bind(')`: the buffer's length is always
enough fuel. -/
def countBind (s : Str) : Nat := countBindF s.length s

theorem matchLit_bindPat_nil : matchLit bindPat [] = none := rfl

theorem countBindF_fuel (fuel : Nat) : ∀ s : Str, s.length ≤ fuel →
    countBindF fuel s = countBindF s.length s := by
  induction fuel using Nat.strong_induction_on with
  | _ fuel ih =>
    intro s hs
    cases fuel with
    | zero =>
      have hnil : s = [] := by
        cases s with
        | nil => rfl
        | cons c cs => simp at hs
      subst hnil
      rfl
    | succ fuel =>
      cases s with
      | nil => rfl
      | cons c cs =>
        simp only [List.length_cons] at hs
        cases h : matchLit bindPat (c :: cs) with
        | some r =>
          have hlt := matchLit_length h
          simp only [bindPat, List.length_cons, List.length_nil] at hlt
          simp only [countBindF, List.length_cons, h]
          rw [ih fuel (by omega) r (by omega),
            ih cs.length (by omega) r (by omega)]
        | none =>
          simp only [countBindF, List.length_cons, h]
          rw [ih fuel (by omega) cs (by omega)]

theorem countBind_nil : countBind [] = 0 := rfl

theorem countBind_cons_none {c : Char} {cs : Str}
    (h : matchLit bindPat (c :: cs) = none) :
    countBind (c :: cs) = countBind cs := by
  simp only [countBind, List.length_cons, countBindF, h]

theorem countBind_some {s r : Str} (h : matchLit bindPat s = some r) :
    countBind s = countBind r + 1 := by
  have hlt := matchLit_length h
  cases s with
  | nil => rw [matchLit_bindPat_nil] at h; cases h
  | cons c cs =>
    simp only [bindPat, List.length_cons, List.length_nil] at hlt
    simp only [countBind, List.length_cons, countBindF, h]
    rw [countBindF_fuel cs.length r (by omega)]

/-- The pure core of `fix_sqlx_syntax`: the two ordered substitutions,
paired with the reported count `fixed_content.count('.bind(')`. -/
def fix_sqlx_syntax (content : Str) : Str × Nat :=
  (sub2 (sub1 content), countBind (sub2 (sub1 content)))

/-- Hardcoded target path of the `__main__` block. -/
def targetPath : String := "/home/cklose/ruv-fann-mcp1/swarm/src/agent.rs"

/-- Backup path: target path with the fixed suffix `.bak2` appended. -/
def backupPath : String := targetPath ++ ".bak2"

/-- A file store: path to contents. -/
abbrev FS := String → Option Str

def fsWrite (fs : FS) (p : String) (c : Str) : FS :=
  fun q => if q = p then some c else fs q

/-- `shutil.copy(src, dst)`: read `src`, write its contents to `dst`. -/
def shutilCopy (fs : FS) (src dst : String) : Option FS :=
  match fs src with
  | none => none
  | some c => some (fsWrite fs dst c)

/-- The file I/O of `fix_sqlx_syntax(file_path)`: read the file, transform,
write the transformed buffer back in place. -/
def runFixFile (fs : FS) (p : String) : Option FS :=
  match fs p with
  | none => none
  | some c => some (fsWrite fs p ( fix_sqlx_syntax c).1)

/-- The `__main__` block: copy the target to the backup path, then run the
fixer on the target.  Returns the intermediate state (right after the
backup, before any mutation of the target) and the final state. -/
def runMain (fs : FS) : Option (FS × FS) :=
  match shutilCopy fs targetPath backupPath with
  | none => none
  | some fs1 =>
    match runFixFile fs1 targetPath with
    | none => none
    | some fs2 => some (fs1, fs2)

/-! ## Character-class facts -/

theorem isSpace_cases {c : Char} (h : isSpace c = true) :
    c = ' ' ∨ c = '\t' ∨ c = '\n' ∨ c = '\r' ∨ c = '\x0b' ∨ c = '\x0c' := by
  simp only [isSpace, Bool.or_eq_true, decide_eq_true_eq] at h
  tauto

theorem isSpace_ne {c d : Char} (h : isSpace c = true) (hd : isSpace d = false) :
    c ≠ d := by
  intro he
  rw [he] at h
  rw [h] at hd
  cases hd

theorem isSpace_word {c : Char} (h : isSpace c = true) : isWord c = false := by
  rcases isSpace_cases h with rfl | rfl | rfl | rfl | rfl | rfl <;> decide

theorem isWord_ne {c d : Char} (h : isWord c = true) (hd : isWord d = false) :
    c ≠ d := by
  intro he
  rw [he] at h
  rw [h] at hd
  cases hd

theorem isWord_space {c : Char} (h : isWord c = true) : isSpace c = false := by
  cases hsp : isSpace c with
  | false => rfl
  | true => rw [isSpace_word hsp] at h; cases h

/-! ## Literal and run-scanning lemmas -/

theorem matchLit_self_append (p r : Str) : matchLit p (p ++ r) = some r := by
  induction p with
  | nil => rfl
  | cons c cs ih => simp [matchLit, ih]

theorem matchLit_ne_head {p c : Char} {ps cs : Str} (h : p ≠ c) :
    matchLit (p :: ps) (c :: cs) = none := by
  simp [matchLit, h]

theorem takeWhile_all_stop (p : Char → Bool) (a : Str) (c : Char) (b : Str)
    (ha : ∀ x ∈ a, p x = true) (hc : p c = false) :
    (a ++ c :: b).takeWhile p = a := by
  induction a with
  | nil => simp [List.takeWhile, hc]
  | cons x a' ih =>
    have hx := ha x (by simp)
    have ih' := ih (fun y hy => ha y (by simp [hy]))
    simp [List.takeWhile, hx, ih']

theorem dropWhile_all_stop (p : Char → Bool) (a : Str) (c : Char) (b : Str)
    (ha : ∀ x ∈ a, p x = true) (hc : p c = false) :
    (a ++ c :: b).dropWhile p = c :: b := by
  induction a with
  | nil => simp [List.dropWhile, hc]
  | cons x a' ih =>
    have hx := ha x (by simp)
    have ih' := ih (fun y hy => ha y (by simp [hy]))
    simp [List.dropWhile, hx, ih']

/-! ## Position-failure and pass-through lemmas for the three scanners -/

theorem matchP1_cons_ne {c : Char} {cs : Str} (h : c ≠ 's') :
    matchP1 (c :: cs) = none := by
  have : matchLit qlit (c :: cs) = none := by
    have : ('s' : Char) ≠ c := fun he => h he.symm
    simp [qlit, matchLit_ne_head this]
  simp [matchP1, this]

theorem sub1_append_ne (a b : Str) (ha : ∀ c ∈ a, c ≠ 's') :
    sub1 (a ++ b) = a ++ sub1 b := by
  induction a with
  | nil => simp
  | cons c a' ih =>
    have h1 : matchP1 (c :: (a' ++ b)) = none :=
      matchP1_cons_ne (ha c (by simp))
    simp only [List.cons_append]
    rw [sub1_cons_none h1, ih (fun y hy => ha y (by simp [hy]))]

theorem sub1_all_ne (a : Str) (ha : ∀ c ∈ a, c ≠ 's') : sub1 a = a := by
  have := sub1_append_ne a [] ha
  simpa [sub1_nil] using this

theorem sub1_nomatch {s : Str} (h : ∀ i < s.length, matchP1 (s.drop i) = none) :
    sub1 s = s := by
  induction s with
  | nil => exact sub1_nil
  | cons c cs ih =>
    have h0 : matchP1 (c :: cs) = none := by
      have := h 0 (by simp)
      simpa using this
    rw [sub1_cons_none h0]
    rw [ih (fun i hi => by
      have := h (i + 1) (by simp; omega)
      simpa using this)]

theorem matchP2_cons_ne {c : Char} {cs : Str} (h : c ≠ ')') :
    matchP2 (c :: cs) = none := by
  have : matchLit [')'] (c :: cs) = none := by
    have : (')' : Char) ≠ c := fun he => h he.symm
    simp [matchLit_ne_head this]
  simp [matchP2, this]

theorem matchP2_rparen_stop {c : Char} {t : Str} (h : isSpace c = false) :
    matchP2 (')' :: c :: t) = none := by
  simp [matchP2, matchLit, List.takeWhile, h]

theorem matchP2_rparen_nil : matchP2 [')'] = none := rfl

theorem sub2_append_ne (a b : Str) (ha : ∀ c ∈ a, c ≠ ')') :
    sub2 (a ++ b) = a ++ sub2 b := by
  induction a with
  | nil => simp
  | cons c a' ih =>
    have h1 : matchP2 (c :: (a' ++ b)) = none :=
      matchP2_cons_ne (ha c (by simp))
    simp only [List.cons_append]
    rw [sub2_cons_none h1, ih (fun y hy => ha y (by simp [hy]))]

theorem sub2_all_ne (a : Str) (ha : ∀ c ∈ a, c ≠ ')') : sub2 a = a := by
  have := sub2_append_ne a [] ha
  simpa [sub2_nil] using this

theorem sub2_nomatch {s : Str} (h : ∀ i < s.length, matchP2 (s.drop i) = none) :
    sub2 s = s := by
  induction s with
  | nil => exact sub2_nil
  | cons c cs ih =>
    have h0 : matchP2 (c :: cs) = none := by
      have := h 0 (by simp)
      simpa using this
    rw [sub2_cons_none h0]
    rw [ih (fun i hi => by
      have := h (i + 1) (by simp; omega)
      simpa using this)]

theorem matchLit_bindPat_ne {c : Char} {cs : Str} (h : c ≠ '.') :
    matchLit bindPat (c :: cs) = none := by
  have : ('.' : Char) ≠ c := fun he => h he.symm
  simp [bindPat, matchLit_ne_head this]

theorem countBind_append_dotfree {a : Str} (b : Str) (ha : ∀ c ∈ a, c ≠ '.') :
    countBind (a ++ b) = countBind b := by
  induction a with
  | nil => simp
  | cons c a' ih =>
    have h1 : matchLit bindPat (c :: (a' ++ b)) = none :=
      matchLit_bindPat_ne (ha c (by simp))
    simp only [List.cons_append]
    rw [countBind_cons_none h1, ih (fun y hy => ha y (by simp [hy]))]

theorem countBind_dotfree {a : Str} (ha : ∀ c ∈ a, c ≠ '.') :
    countBind a = 0 := by
  have := countBind_append_dotfree (a := a) [] ha
  simpa [countBind_nil] using this

theorem countBind_bindPat (b : Str) : countBind (bindPat ++ b) = countBind b + 1 :=
  countBind_some (matchLit_self_append bindPat b)

/-! ## A well-formed Step-1 call site -/

/-- A well-formed call site
`sqlx::query(` ws1 `r#"` body `"#,` ws2 param ws3 `)` as the Step-1
pattern expects it. -/
def siteStr (ws1 body ws2 param ws3 : Str) : Str :=
  qlit ++ ws1 ++ rq ++ body ++ cq ++ [','] ++ ws2 ++ param ++ ws3 ++ [')']

theorem matchP1_site (ws1 body ws2 param ws3 suf : Str)
    (hws1 : ∀ c ∈ ws1, isSpace c = true)
    (hbody : ∀ c ∈ body, c ≠ '"')
    (hws2 : ∀ c ∈ ws2, isSpace c = true)
    (hparam : ∀ c ∈ param, isWord c = true)
    (hpne : param ≠ [])
    (hws3 : ∀ c ∈ ws3, isSpace c = true) :
    matchP1 (siteStr ws1 body ws2 param ws3 ++ suf) =
      some (qlit ++ ws1 ++ rq ++ body ++ cq, param, suf) := by
  obtain ⟨p0, ptail, rfl⟩ : ∃ p0 ptail, param = p0 :: ptail := by
    cases param with
    | nil => exact absurd rfl hpne
    | cons p0 ptail => exact ⟨p0, ptail, rfl⟩
  have hp0 : isWord p0 = true := hparam p0 (by simp)
  have e1 : matchLit qlit (siteStr ws1 body ws2 (p0 :: ptail) ws3 ++ suf) =
      some (ws1 ++ 'r' :: '#' :: '"' ::
        (body ++ '"' :: '#' :: ',' ::
          (ws2 ++ p0 :: (ptail ++ (ws3 ++ ')' :: suf))))) := by
    simp only [siteStr, rq, cq, List.append_assoc, List.cons_append,
      List.nil_append, List.singleton_append]
    exact matchLit_self_append qlit _
  have e2 : (ws1 ++ 'r' :: '#' :: '"' ::
        (body ++ '"' :: '#' :: ',' ::
          (ws2 ++ p0 :: (ptail ++ (ws3 ++ ')' :: suf))))).takeWhile isSpace =
      ws1 :=
    takeWhile_all_stop isSpace ws1 'r' _ hws1 (by decide)
  have e3 : (ws1 ++ 'r' :: '#' :: '"' ::
        (body ++ '"' :: '#' :: ',' ::
          (ws2 ++ p0 :: (ptail ++ (ws3 ++ ')' :: suf))))).dropWhile isSpace =
      'r' :: '#' :: '"' ::
        (body ++ '"' :: '#' :: ',' ::
          (ws2 ++ p0 :: (ptail ++ (ws3 ++ ')' :: suf)))) :=
    dropWhile_all_stop isSpace ws1 'r' _ hws1 (by decide)
  have e4 : matchLit rq ('r' :: '#' :: '"' ::
        (body ++ '"' :: '#' :: ',' ::
          (ws2 ++ p0 :: (ptail ++ (ws3 ++ ')' :: suf))))) =
      some (body ++ '"' :: '#' :: ',' ::
        (ws2 ++ p0 :: (ptail ++ (ws3 ++ ')' :: suf)))) := by
    have := matchLit_self_append rq
      (body ++ '"' :: '#' :: ',' ::
        (ws2 ++ p0 :: (ptail ++ (ws3 ++ ')' :: suf))))
    simpa [rq] using this
  have hbody' : ∀ c ∈ body, (c != '"') = true := by
    intro c hc
    simpa using hbody c hc
  have e5 : (body ++ '"' :: '#' :: ',' ::
        (ws2 ++ p0 :: (ptail ++ (ws3 ++ ')' :: suf)))).takeWhile
          (fun c => c != '"') = body :=
    takeWhile_all_stop _ body '"' _ hbody' (by decide)
  have e6 : (body ++ '"' :: '#' :: ',' ::
        (ws2 ++ p0 :: (ptail ++ (ws3 ++ ')' :: suf)))).dropWhile
          (fun c => c != '"') =
      '"' :: '#' :: ',' :: (ws2 ++ p0 :: (ptail ++ (ws3 ++ ')' :: suf))) :=
    dropWhile_all_stop _ body '"' _ hbody' (by decide)
  have e7 : matchLit cq ('"' :: '#' :: ',' ::
        (ws2 ++ p0 :: (ptail ++ (ws3 ++ ')' :: suf)))) =
      some (',' :: (ws2 ++ p0 :: (ptail ++ (ws3 ++ ')' :: suf)))) := by
    have := matchLit_self_append cq
      (',' :: (ws2 ++ p0 :: (ptail ++ (ws3 ++ ')' :: suf))))
    simpa [cq] using this
  have e8 : matchLit [','] (',' :: (ws2 ++ p0 :: (ptail ++ (ws3 ++ ')' :: suf)))) =
      some (ws2 ++ p0 :: (ptail ++ (ws3 ++ ')' :: suf))) := by
    have := matchLit_self_append [',']
      (ws2 ++ p0 :: (ptail ++ (ws3 ++ ')' :: suf)))
    simpa using this
  have e9 : (ws2 ++ p0 :: (ptail ++ (ws3 ++ ')' :: suf))).dropWhile isSpace =
      p0 :: (ptail ++ (ws3 ++ ')' :: suf)) :=
    dropWhile_all_stop isSpace ws2 p0 _ hws2 (isWord_space hp0)
  have e10 : (p0 :: (ptail ++ (ws3 ++ ')' :: suf))).takeWhile isWord =
      p0 :: ptail := by
    have hall : ∀ c ∈ p0 :: ptail, isWord c = true := hparam
    cases ws3 with
    | nil =>
      have := takeWhile_all_stop isWord (p0 :: ptail) ')' suf hall (by decide)
      simpa using this
    | cons w ws3' =>
      have hw : isWord w = false := isSpace_word (hws3 w (by simp))
      have := takeWhile_all_stop isWord (p0 :: ptail) w (ws3' ++ ')' :: suf)
        hall hw
      simpa using this
  have e11 : (p0 :: (ptail ++ (ws3 ++ ')' :: suf))).dropWhile isWord =
      ws3 ++ ')' :: suf := by
    have hall : ∀ c ∈ p0 :: ptail, isWord c = true := hparam
    cases ws3 with
    | nil =>
      have := dropWhile_all_stop isWord (p0 :: ptail) ')' suf hall (by decide)
      simpa using this
    | cons w ws3' =>
      have hw : isWord w = false := isSpace_word (hws3 w (by simp))
      have := dropWhile_all_stop isWord (p0 :: ptail) w (ws3' ++ ')' :: suf)
        hall hw
      simpa using this
  have e12 : (ws3 ++ ')' :: suf).dropWhile isSpace = ')' :: suf :=
    dropWhile_all_stop isSpace ws3 ')' suf hws3 (by decide)
  have e13 : matchLit [')'] (')' :: suf) = some suf := by
    have := matchLit_self_append [')'] suf
    simpa using this
  simp only [matchP1, e1, e2, e3, e4, e5, e6, e7, e8, e9, e10, e11, e12, e13]
  rw [if_neg (by simp)]

/-! ## Step-2 match and pass-through lemmas -/

theorem contains_newline_of_mem {w : Str} (h : '\n' ∈ w) :
    w.contains '\n' = true := by
  simpa using h

theorem matchP2_site (w1 w2 v suf : Str)
    (hw1 : ∀ c ∈ w1, isSpace c = true) (hn1 : '\n' ∈ w1)
    (hw2 : ∀ c ∈ w2, isSpace c = true) (hn2 : '\n' ∈ w2)
    (hv : v = oneLit ∨ v = allLit) :
    matchP2 (')' :: (w1 ++ ')' :: (w2 ++ '.' :: (fet ++ (v ++ suf))))) =
      some (fet ++ v, suf) := by
  have e1 : matchLit [')']
      (')' :: (w1 ++ ')' :: (w2 ++ '.' :: (fet ++ (v ++ suf))))) =
      some (w1 ++ ')' :: (w2 ++ '.' :: (fet ++ (v ++ suf)))) := by
    simp [matchLit]
  have e2 : (w1 ++ ')' :: (w2 ++ '.' :: (fet ++ (v ++ suf)))).takeWhile isSpace =
      w1 :=
    takeWhile_all_stop isSpace w1 ')' _ hw1 (by decide)
  have e3 : (w1 ++ ')' :: (w2 ++ '.' :: (fet ++ (v ++ suf)))).dropWhile isSpace =
      ')' :: (w2 ++ '.' :: (fet ++ (v ++ suf))) :=
    dropWhile_all_stop isSpace w1 ')' _ hw1 (by decide)
  have e4 : matchLit [')'] (')' :: (w2 ++ '.' :: (fet ++ (v ++ suf)))) =
      some (w2 ++ '.' :: (fet ++ (v ++ suf))) := by
    simp [matchLit]
  have e5 : (w2 ++ '.' :: (fet ++ (v ++ suf))).takeWhile isSpace = w2 :=
    takeWhile_all_stop isSpace w2 '.' _ hw2 (by decide)
  have e6 : (w2 ++ '.' :: (fet ++ (v ++ suf))).dropWhile isSpace =
      '.' :: (fet ++ (v ++ suf)) :=
    dropWhile_all_stop isSpace w2 '.' _ hw2 (by decide)
  have e7 : matchLit dotFetch ('.' :: (fet ++ (v ++ suf))) = some (v ++ suf) := by
    have := matchLit_self_append dotFetch (v ++ suf)
    simpa [dotFetch, fet] using this
  rcases hv with rfl | rfl
  · have e8 : matchLit oneLit (oneLit ++ suf) = some suf :=
      matchLit_self_append oneLit suf
    simp only [matchP2, e1, e2, e3, e4, e5, e6, e7, e8,
      contains_newline_of_mem hn1, contains_newline_of_mem hn2, if_true]
  · have e8 : matchLit oneLit (allLit ++ suf) = none := by
      simp [oneLit, allLit, matchLit]
    have e9 : matchLit allLit (allLit ++ suf) = some suf :=
      matchLit_self_append allLit suf
    simp only [matchP2, e1, e2, e3, e4, e5, e6, e7, e8, e9,
      contains_newline_of_mem hn1, contains_newline_of_mem hn2, if_true]

/-- A call site after the Step-1 rewrite. -/
def rewSite (ws1 body param : Str) : Str :=
  qlit ++ ws1 ++ rq ++ body ++ cq ++ bindRepl param

/-- The Step-2 scanner never fires inside a Step-1-rewritten call site:
the run after the first `)` contains a newline but is followed by `.`,
and the run after the final `)` is controlled by the continuation. -/
theorem matchP2_mid_rew (param rest : Str) :
    matchP2 (')' :: ('\n' :: (indentStr ++ (bindPat ++ (param ++ ')' :: rest))))) =
      none := by
  have e1 : matchLit [')']
      (')' :: ('\n' :: (indentStr ++ (bindPat ++ (param ++ ')' :: rest))))) =
      some ('\n' :: (indentStr ++ (bindPat ++ (param ++ ')' :: rest)))) := by
    simp [matchLit]
  have hsp : ∀ c ∈ '\n' :: indentStr, isSpace c = true := by decide
  have e2 : ('\n' :: (indentStr ++ (bindPat ++ (param ++ ')' :: rest)))).takeWhile
      isSpace = '\n' :: indentStr := by
    have := takeWhile_all_stop isSpace ('\n' :: indentStr) '.'
      ('b' :: 'i' :: 'n' :: 'd' :: '(' :: (param ++ ')' :: rest)) hsp (by decide)
    simpa [bindPat] using this
  have e3 : ('\n' :: (indentStr ++ (bindPat ++ (param ++ ')' :: rest)))).dropWhile
      isSpace = '.' :: ('b' :: 'i' :: 'n' :: 'd' :: '(' :: (param ++ ')' :: rest)) := by
    have := dropWhile_all_stop isSpace ('\n' :: indentStr) '.'
      ('b' :: 'i' :: 'n' :: 'd' :: '(' :: (param ++ ')' :: rest)) hsp (by decide)
    simpa [bindPat] using this
  have e4 : matchLit [')']
      ('.' :: ('b' :: 'i' :: 'n' :: 'd' :: '(' :: (param ++ ')' :: rest))) = none := by
    simp [matchLit]
  simp [matchP2, e1, e2, e3, e4]

theorem sub2_skip_rew (ws1 body param rest : Str)
    (hws1 : ∀ c ∈ ws1, isSpace c = true)
    (hbody : ∀ c ∈ body, c ≠ ')')
    (hparam : ∀ c ∈ param, isWord c = true)
    (hrest : matchP2 (')' :: rest) = none) :
    sub2 (rewSite ws1 body param ++ rest) = rewSite ws1 body param ++ sub2 rest := by
  have hP : ∀ c ∈ qlit ++ ws1 ++ rq ++ body ++ cq, c ≠ ')' := by
    intro c hc
    simp only [qlit, rq, cq, List.mem_append, List.mem_cons,
      List.not_mem_nil, or_false] at hc
    rcases hc with ((((h | h) | h) | h) | h)
    · rcases h with h | h | h | h | h | h | h | h | h | h | h | h <;> subst h <;> decide
    · exact isSpace_ne (hws1 c h) (by decide)
    · rcases h with h | h | h <;> subst h <;> decide
    · exact hbody c h
    · rcases h with h | h <;> subst h <;> decide
  have hM : ∀ c ∈ '\n' :: (indentStr ++ bindPat) ++ param, c ≠ ')' := by
    intro c hc
    simp only [indentStr, bindPat, List.mem_append, List.mem_cons,
      List.not_mem_nil, or_false] at hc
    rcases hc with (h | h) | h
    · subst h; decide
    · rcases h with h | h <;>
        [skip; skip] <;>
        first
        | (rcases h with h | h | h | h | h | h | h | h <;> subst h <;> decide)
        | (rcases h with h | h | h | h | h | h <;> subst h <;> decide)
    · exact isWord_ne (hparam c h) (by decide)
  have shape : rewSite ws1 body param ++ rest =
      (qlit ++ ws1 ++ rq ++ body ++ cq) ++
        (')' :: ('\n' :: (indentStr ++ (bindPat ++ (param ++ ')' :: rest))))) := by
    simp [rewSite, bindRepl, List.append_assoc]
  rw [shape, sub2_append_ne _ _ hP,
    sub2_cons_none (matchP2_mid_rew param rest)]
  have shape2 : '\n' :: (indentStr ++ (bindPat ++ (param ++ ')' :: rest))) =
      ('\n' :: (indentStr ++ bindPat) ++ param) ++ (')' :: rest) := by
    simp [List.append_assoc]
  rw [shape2, sub2_append_ne _ _ hM, sub2_cons_none hrest]
  simp [rewSite, bindRepl, List.append_assoc]

/-! ## Claims -/

/-- Context for single-site buffers: `let row = ` … `;\n`.  It contains no
`s` (so the Step-1 literal cannot start inside it), no `)` followed by
whitespace shaped like the Step-2 pattern, and no `.`. -/
def preC1 : Str := ['l', 'e', 't', ' ', 'r', 'o', 'w', ' ', '=', ' ']

def sufC1 : Str := [';', '\n']

/-- A raw-string body that itself contains the Step-2 collapse shape:
`)` newline `)` newline `.fetch_one`. -/
def trapBody : Str :=
  [')', '\n', ')', '\n', '.', 'f', 'e', 't', 'c', 'h', '_', 'o', 'n', 'e']

/-- An ordinary SQL body containing parentheses: `SELECT COUNT(*)`. -/
def countBody : Str :=
  ['S', 'E', 'L', 'E', 'C', 'T', ' ', 'C', 'O', 'U', 'N', 'T', '(', '*', ')']

set_option maxRecDepth 20000 in
/-- C1 counterexample: the buffer
`let row = sqlx::query(r#")` nl `)` nl `.fetch_one"#, t);` nl contains
exactly one well-formed call site — the Step-1 pattern matches at
position 10 and at no other position — and no pre-existing `.bind(`,
yet the raw string literal does not appear unchanged in the rewritten
buffer: the Step-2 cleanup fires inside the literal and garbles it. -/
theorem claim_C1_cex :
    matchP1 ((preC1 ++ siteStr [] trapBody [' '] ['t'] [] ++ sufC1).drop 10) =
      some (qlit ++ rq ++ trapBody ++ cq, ['t'], sufC1) ∧
    (∀ i < (preC1 ++ siteStr [] trapBody [' '] ['t'] [] ++ sufC1).length,
      i ≠ 10 →
      matchP1 ((preC1 ++ siteStr [] trapBody [' '] ['t'] [] ++ sufC1).drop i) =
        none) ∧
    countBind (preC1 ++ siteStr [] trapBody [' '] ['t'] [] ++ sufC1) = 0 ∧
    ¬ ((rq ++ trapBody ++ cq) <:+:
      ( fix_sqlx_syntax (preC1 ++ siteStr [] trapBody [' '] ['t'] [] ++
        sufC1)).1) := by
  decide

/-- C1 (amended): for a buffer containing exactly one well-formed call site
`sqlx::query(` ws1 `r#"` body `"#,` ws2 param ws3 `)`, provided the Step-2
pattern matches nowhere in the Step-1-rewritten buffer (in particular the
literal body does not itself contain the collapse shape), the invocation
token and the raw string literal appear unchanged, followed by the closing
delimiter, a line break, the fixed eight-space indentation, and a chained
`.bind(param)` call; and with a dot-free body (hence no pre-existing
`.bind(` anywhere in the buffer) the reported count is 1. -/
theorem claim_C1 (ws1 body ws2 param ws3 : Str)
    (hws1 : ∀ c ∈ ws1, isSpace c = true)
    (hbq : ∀ c ∈ body, c ≠ '"')
    (hbd : ∀ c ∈ body, c ≠ '.')
    (hws2 : ∀ c ∈ ws2, isSpace c = true)
    (hparam : ∀ c ∈ param, isWord c = true)
    (hpne : param ≠ [])
    (hws3 : ∀ c ∈ ws3, isSpace c = true)
    (hstep2 : ∀ i < (preC1 ++ rewSite ws1 body param ++ sufC1).length,
      matchP2 ((preC1 ++ rewSite ws1 body param ++ sufC1).drop i) = none) :
    fix_sqlx_syntax (preC1 ++ siteStr ws1 body ws2 param ws3 ++ sufC1) =
      (preC1 ++ rewSite ws1 body param ++ sufC1, 1) := by
  have hs2 := matchP1_site ws1 body ws2 param ws3 sufC1 hws1 hbq hws2 hparam
    hpne hws3
  have h1 : sub1 (preC1 ++ siteStr ws1 body ws2 param ws3 ++ sufC1) =
      preC1 ++ rewSite ws1 body param ++ sufC1 := by
    rw [List.append_assoc, sub1_append_ne _ _ (by decide), sub1_some hs2,
      sub1_all_ne sufC1 (by decide)]
    simp [rewSite, List.append_assoc]
  have h2 : sub2 (preC1 ++ rewSite ws1 body param ++ sufC1) =
      preC1 ++ rewSite ws1 body param ++ sufC1 :=
    sub2_nomatch hstep2
  have hA : ∀ c ∈ preC1 ++ (qlit ++ (ws1 ++ (rq ++ (body ++
      (cq ++ ([')', '\n'] ++ indentStr)))))), c ≠ '.' := by
    simp only [List.forall_mem_append]
    exact ⟨by decide, by decide, fun c hc => isSpace_ne (hws1 c hc) (by decide),
      by decide, hbd, by decide, by decide, by decide⟩
  have hB : ∀ c ∈ param ++ ')' :: sufC1, c ≠ '.' := by
    simp only [List.forall_mem_append]
    exact ⟨fun c hc => isWord_ne (hparam c hc) (by decide), by decide⟩
  have h3 : countBind (preC1 ++ rewSite ws1 body param ++ sufC1) = 1 := by
    have shape : preC1 ++ rewSite ws1 body param ++ sufC1 =
        (preC1 ++ (qlit ++ (ws1 ++ (rq ++ (body ++
          (cq ++ ([')', '\n'] ++ indentStr))))))) ++
          (bindPat ++ (param ++ ')' :: sufC1)) := by
      simp [rewSite, bindRepl, List.append_assoc]
    rw [shape, countBind_append_dotfree _ hA, countBind_bindPat,
      countBind_dotfree hB]
  simp only [ fix_sqlx_syntax]
  rw [h1, h2, h3]

theorem claim_C1_witness :
    fix_sqlx_syntax (preC1 ++ siteStr [] countBody [' '] ['t', 'o', 'o', 'l'] []
        ++ sufC1) =
      (preC1 ++ rewSite [] countBody ['t', 'o', 'o', 'l'] ++ sufC1, 1) :=
  claim_C1 [] countBody [' '] ['t', 'o', 'o', 'l'] []
    (by decide) (by decide) (by decide) (by decide) (by decide) (by decide)
    (by decide) (by decide)

/-- C2 counterexample: the buffer `)\n)\n.fetch_one` contains no call site
matching the Step-1 pattern at any position, yet `rewrite` does not return
it unchanged: the Step-2 cleanup fires and collapses it, so the claim
"zero Step-1 matches implies the buffer is returned unchanged" is false. -/
theorem claim_C2_cex :
    (∀ i < ([')', '\n', ')', '\n', '.', 'f', 'e', 't', 'c', 'h', '_',
        'o', 'n', 'e'] : Str).length,
      matchP1 (([')', '\n', ')', '\n', '.', 'f', 'e', 't', 'c', 'h', '_',
        'o', 'n', 'e'] : Str).drop i) = none) ∧
    ( fix_sqlx_syntax [')', '\n', ')', '\n', '.', 'f', 'e', 't', 'c', 'h', '_',
        'o', 'n', 'e']).1 ≠
      [')', '\n', ')', '\n', '.', 'f', 'e', 't', 'c', 'h', '_', 'o', 'n', 'e'] := by
  decide

/-- C2 (amended): for every buffer in which neither the Step-1 pattern nor
the Step-2 pattern matches at any position, `rewrite` returns the buffer
unchanged and the reported count is exactly the number of chained-bind
occurrences already present in the input. -/
theorem claim_C2 (s : Str)
    (h1 : ∀ i < s.length, matchP1 (s.drop i) = none)
    (h2 : ∀ i < s.length, matchP2 (s.drop i) = none) :
    fix_sqlx_syntax s = (s, countBind s) := by
  simp only [ fix_sqlx_syntax]
  rw [sub1_nomatch h1, sub2_nomatch h2]

theorem claim_C2_witness :
    fix_sqlx_syntax ['h', 'e', 'l', 'l', 'o'] = (['h', 'e', 'l', 'l', 'o'], 0) :=
  (claim_C2 ['h', 'e', 'l', 'l', 'o'] (by decide) (by decide)).trans (by decide)

/-- C3 counterexample: for the buffer `)\n)\n)\n.fetch_one`, the Step-1
pattern does not match the first run's output anywhere (the side condition
of the claim holds), yet running the transformation a second time changes
the buffer again: the Step-2 collapse re-fires on its own output. -/
theorem claim_C3_cex :
    (∀ i < (( fix_sqlx_syntax [')', '\n', ')', '\n', ')', '\n', '.', 'f', 'e',
        't', 'c', 'h', '_', 'o', 'n', 'e']).1).length,
      matchP1 ((( fix_sqlx_syntax [')', '\n', ')', '\n', ')', '\n', '.', 'f', 'e',
        't', 'c', 'h', '_', 'o', 'n', 'e']).1).drop i) = none) ∧
    ( fix_sqlx_syntax (( fix_sqlx_syntax [')', '\n', ')', '\n', ')', '\n', '.', 'f',
        'e', 't', 'c', 'h', '_', 'o', 'n', 'e']).1)).1 ≠
      ( fix_sqlx_syntax [')', '\n', ')', '\n', ')', '\n', '.', 'f', 'e', 't', 'c',
        'h', '_', 'o', 'n', 'e']).1 := by
  decide

/-- C3 (amended): the two-step rewrite is idempotent on every buffer whose
first-run output is matched by neither the Step-1 pattern nor the Step-2
pattern at any position: applying the full transformation to its own
output then returns that output (and the same count) unchanged. -/
theorem claim_C3 (s : Str)
    (h1 : ∀ i < (( fix_sqlx_syntax s).1).length,
      matchP1 ((( fix_sqlx_syntax s).1).drop i) = none)
    (h2 : ∀ i < (( fix_sqlx_syntax s).1).length,
      matchP2 ((( fix_sqlx_syntax s).1).drop i) = none) :
    fix_sqlx_syntax (( fix_sqlx_syntax s).1) = fix_sqlx_syntax s := by
  have e : ( fix_sqlx_syntax s).1 = sub2 (sub1 s) := rfl
  rw [e] at h1 h2
  rw [e]
  simp only [ fix_sqlx_syntax]
  rw [sub1_nomatch h1, sub2_nomatch h2]

theorem claim_C3_witness :
    fix_sqlx_syntax (( fix_sqlx_syntax ['s', 'q', 'l', 'x', ':', ':', 'q', 'u',
        'e', 'r', 'y', '(', 'r', '#', '"', '"', '#', ',', ' ', 't', ')']).1) =
      fix_sqlx_syntax ['s', 'q', 'l', 'x', ':', ':', 'q', 'u', 'e', 'r', 'y',
        '(', 'r', '#', '"', '"', '#', ',', ' ', 't', ')'] :=
  claim_C3 ['s', 'q', 'l', 'x', ':', ':', 'q', 'u', 'e', 'r', 'y', '(', 'r',
    '#', '"', '"', '#', ',', ' ', 't', ')'] (by decide) (by decide)

/-- C4: in any buffer made of a `)`-free prefix, then two closing
delimiters each followed by a whitespace run containing a newline, then a
chained terminal call `.fetch_one`/`.fetch_all`, the Step-2 cleanup
collapses the two delimiters into one, followed by a newline, the fixed
indentation, and the same terminal variant. -/
theorem claim_C4 (pre w1 w2 v suf : Str)
    (hpre : ∀ c ∈ pre, c ≠ ')')
    (hw1 : ∀ c ∈ w1, isSpace c = true) (hn1 : '\n' ∈ w1)
    (hw2 : ∀ c ∈ w2, isSpace c = true) (hn2 : '\n' ∈ w2)
    (hv : v = oneLit ∨ v = allLit) :
    sub2 (pre ++ ')' :: (w1 ++ ')' :: (w2 ++ '.' :: (fet ++ (v ++ suf))))) =
      pre ++ (fetchRepl (fet ++ v) ++ sub2 suf) := by
  rw [sub2_append_ne _ _ hpre,
    sub2_some (matchP2_site w1 w2 v suf hw1 hn1 hw2 hn2 hv)]

theorem claim_C4_witness :
    sub2 (['x'] ++ ')' :: (['\n'] ++ ')' :: (['\n'] ++ '.' ::
        (fet ++ (oneLit ++ []))))) =
      ['x'] ++ (fetchRepl (fet ++ oneLit) ++ sub2 []) :=
  claim_C4 ['x'] ['\n'] ['\n'] oneLit [] (by decide) (by decide) (by decide)
    (by decide) (by decide) (Or.inl rfl)

/-- `qlit` without its leading `s`, for splitting off the first scanned
character of a call site. -/
def qtail : Str := ['q', 'l', 'x', ':', ':', 'q', 'u', 'e', 'r', 'y', '(']

theorem qlit_eq : qlit = 's' :: qtail := rfl

/-- A malformed call site with two parameters:
`sqlx::query(` ws1 `r#"` body `"#,` ws2 p1 `,` ws4 p2 ws5 `)`. -/
def bad2Site (ws1 body ws2 p1 ws4 p2 ws5 : Str) : Str :=
  qlit ++ ws1 ++ rq ++ body ++ cq ++ [','] ++ ws2 ++ p1 ++ [','] ++ ws4 ++
    p2 ++ ws5 ++ [')']

/-- The Step-1 pattern rejects a two-parameter call site: after the first
identifier the scanner requires `)` but finds the second `,`. -/
theorem matchP1_bad2 (ws1 body ws2 p1 ws4 p2 ws5 suf : Str)
    (hws1 : ∀ c ∈ ws1, isSpace c = true)
    (hbody : ∀ c ∈ body, c ≠ '"')
    (hws2 : ∀ c ∈ ws2, isSpace c = true)
    (hp1 : ∀ c ∈ p1, isWord c = true)
    (hp1ne : p1 ≠ []) :
    matchP1 (bad2Site ws1 body ws2 p1 ws4 p2 ws5 ++ suf) = none := by
  obtain ⟨q0, qt, rfl⟩ : ∃ q0 qt, p1 = q0 :: qt := by
    cases p1 with
    | nil => exact absurd rfl hp1ne
    | cons q0 qt => exact ⟨q0, qt, rfl⟩
  have hq0 : isWord q0 = true := hp1 q0 (by simp)
  have e1 : matchLit qlit (bad2Site ws1 body ws2 (q0 :: qt) ws4 p2 ws5 ++ suf) =
      some (ws1 ++ 'r' :: '#' :: '"' ::
        (body ++ '"' :: '#' :: ',' ::
          (ws2 ++ q0 :: (qt ++ ',' :: (ws4 ++ (p2 ++ (ws5 ++ ')' :: suf))))))) := by
    simp only [bad2Site, rq, cq, List.append_assoc, List.cons_append,
      List.nil_append, List.singleton_append]
    exact matchLit_self_append qlit _
  have e2 : (ws1 ++ 'r' :: '#' :: '"' ::
        (body ++ '"' :: '#' :: ',' ::
          (ws2 ++ q0 :: (qt ++ ',' :: (ws4 ++ (p2 ++ (ws5 ++ ')' :: suf))))))).takeWhile
        isSpace = ws1 :=
    takeWhile_all_stop isSpace ws1 'r' _ hws1 (by decide)
  have e3 : (ws1 ++ 'r' :: '#' :: '"' ::
        (body ++ '"' :: '#' :: ',' ::
          (ws2 ++ q0 :: (qt ++ ',' :: (ws4 ++ (p2 ++ (ws5 ++ ')' :: suf))))))).dropWhile
        isSpace =
      'r' :: '#' :: '"' ::
        (body ++ '"' :: '#' :: ',' ::
          (ws2 ++ q0 :: (qt ++ ',' :: (ws4 ++ (p2 ++ (ws5 ++ ')' :: suf)))))) :=
    dropWhile_all_stop isSpace ws1 'r' _ hws1 (by decide)
  have e4 : matchLit rq ('r' :: '#' :: '"' ::
        (body ++ '"' :: '#' :: ',' ::
          (ws2 ++ q0 :: (qt ++ ',' :: (ws4 ++ (p2 ++ (ws5 ++ ')' :: suf))))))) =
      some (body ++ '"' :: '#' :: ',' ::
        (ws2 ++ q0 :: (qt ++ ',' :: (ws4 ++ (p2 ++ (ws5 ++ ')' :: suf)))))) := by
    have := matchLit_self_append rq
      (body ++ '"' :: '#' :: ',' ::
        (ws2 ++ q0 :: (qt ++ ',' :: (ws4 ++ (p2 ++ (ws5 ++ ')' :: suf))))))
    simpa [rq] using this
  have hbody' : ∀ c ∈ body, (c != '"') = true := by
    intro c hc
    simpa using hbody c hc
  have e5 : (body ++ '"' :: '#' :: ',' ::
        (ws2 ++ q0 :: (qt ++ ',' :: (ws4 ++ (p2 ++ (ws5 ++ ')' :: suf)))))).takeWhile
        (fun c => c != '"') = body :=
    takeWhile_all_stop _ body '"' _ hbody' (by decide)
  have e6 : (body ++ '"' :: '#' :: ',' ::
        (ws2 ++ q0 :: (qt ++ ',' :: (ws4 ++ (p2 ++ (ws5 ++ ')' :: suf)))))).dropWhile
        (fun c => c != '"') =
      '"' :: '#' :: ',' ::
        (ws2 ++ q0 :: (qt ++ ',' :: (ws4 ++ (p2 ++ (ws5 ++ ')' :: suf))))) :=
    dropWhile_all_stop _ body '"' _ hbody' (by decide)
  have e7 : matchLit cq ('"' :: '#' :: ',' ::
        (ws2 ++ q0 :: (qt ++ ',' :: (ws4 ++ (p2 ++ (ws5 ++ ')' :: suf)))))) =
      some (',' :: (ws2 ++ q0 :: (qt ++ ',' :: (ws4 ++ (p2 ++ (ws5 ++ ')' :: suf)))))) := by
    have := matchLit_self_append cq
      (',' :: (ws2 ++ q0 :: (qt ++ ',' :: (ws4 ++ (p2 ++ (ws5 ++ ')' :: suf))))))
    simpa [cq] using this
  have e8 : matchLit [',']
      (',' :: (ws2 ++ q0 :: (qt ++ ',' :: (ws4 ++ (p2 ++ (ws5 ++ ')' :: suf)))))) =
      some (ws2 ++ q0 :: (qt ++ ',' :: (ws4 ++ (p2 ++ (ws5 ++ ')' :: suf))))) := by
    have := matchLit_self_append [',']
      (ws2 ++ q0 :: (qt ++ ',' :: (ws4 ++ (p2 ++ (ws5 ++ ')' :: suf)))))
    simpa using this
  have e9 : (ws2 ++ q0 :: (qt ++ ',' :: (ws4 ++ (p2 ++ (ws5 ++ ')' :: suf))))).dropWhile
      isSpace = q0 :: (qt ++ ',' :: (ws4 ++ (p2 ++ (ws5 ++ ')' :: suf)))) :=
    dropWhile_all_stop isSpace ws2 q0 _ hws2 (isWord_space hq0)
  have e10 : (q0 :: (qt ++ ',' :: (ws4 ++ (p2 ++ (ws5 ++ ')' :: suf))))).takeWhile
      isWord = q0 :: qt := by
    have := takeWhile_all_stop isWord (q0 :: qt) ','
      (ws4 ++ (p2 ++ (ws5 ++ ')' :: suf))) hp1 (by decide)
    simpa using this
  have e11 : (q0 :: (qt ++ ',' :: (ws4 ++ (p2 ++ (ws5 ++ ')' :: suf))))).dropWhile
      isWord = ',' :: (ws4 ++ (p2 ++ (ws5 ++ ')' :: suf))) := by
    have := dropWhile_all_stop isWord (q0 :: qt) ','
      (ws4 ++ (p2 ++ (ws5 ++ ')' :: suf))) hp1 (by decide)
    simpa using this
  have e12 : (',' :: (ws4 ++ (p2 ++ (ws5 ++ ')' :: suf)))).dropWhile isSpace =
      ',' :: (ws4 ++ (p2 ++ (ws5 ++ ')' :: suf))) := by
    have hcomma : isSpace ',' = false := rfl
    simp [List.dropWhile, hcomma]
  have e13 : matchLit [')'] (',' :: (ws4 ++ (p2 ++ (ws5 ++ ')' :: suf)))) =
      none := by
    simp [matchLit]
  simp only [matchP1, e1, e2, e3, e4, e5, e6, e7, e8, e9, e10, e11, e12, e13]
  rw [if_neg (by simp)]

/-- C5 counterexample: the buffer
`let row = sqlx::query(r#")` nl `)` nl `.fetch_one"#, a, b);` nl holds one
two-parameter call site that the Step-1 pattern rejects at every position
of the buffer, yet the buffer is not passed through unchanged: the Step-2
cleanup garbles the raw string literal of the non-matching call site. -/
theorem claim_C5_cex :
    (∀ i < (preC1 ++ bad2Site [] trapBody [' '] ['a'] [' '] ['b'] []
        ++ sufC1).length,
      matchP1 ((preC1 ++ bad2Site [] trapBody [' '] ['a'] [' '] ['b'] []
        ++ sufC1).drop i) = none) ∧
    ( fix_sqlx_syntax (preC1 ++ bad2Site [] trapBody [' '] ['a'] [' '] ['b'] []
        ++ sufC1)).1 ≠
      preC1 ++ bad2Site [] trapBody [' '] ['a'] [' '] ['b'] [] ++ sufC1 := by
  decide

/-- C5 (amended): a call site that does not match the expected Step-1
shape — here a two-parameter call `sqlx::query(r#"…"#, p1, p2)` — is left
alone by Step 1, and provided the Step-2 pattern matches nowhere in the
buffer, the whole buffer comes back character-for-character unchanged
(and with a dot-free body the count is 0: nothing is rewritten), with no
error raised (the transformation is total). -/
theorem claim_C5 (ws1 body ws2 p1 ws4 p2 ws5 : Str)
    (hws1 : ∀ c ∈ ws1, isSpace c = true)
    (hbq : ∀ c ∈ body, c ≠ '"')
    (hbs : ∀ c ∈ body, c ≠ 's')
    (hbd : ∀ c ∈ body, c ≠ '.')
    (hws2 : ∀ c ∈ ws2, isSpace c = true)
    (hp1 : ∀ c ∈ p1, isWord c = true) (hp1ne : p1 ≠ [])
    (hp1s : ∀ c ∈ p1, c ≠ 's')
    (hws4 : ∀ c ∈ ws4, isSpace c = true)
    (hp2 : ∀ c ∈ p2, isWord c = true)
    (hp2s : ∀ c ∈ p2, c ≠ 's')
    (hws5 : ∀ c ∈ ws5, isSpace c = true)
    (hstep2 : ∀ i < (preC1 ++ bad2Site ws1 body ws2 p1 ws4 p2 ws5
        ++ sufC1).length,
      matchP2 ((preC1 ++ bad2Site ws1 body ws2 p1 ws4 p2 ws5
        ++ sufC1).drop i) = none) :
    fix_sqlx_syntax (preC1 ++ bad2Site ws1 body ws2 p1 ws4 p2 ws5 ++ sufC1) =
      (preC1 ++ bad2Site ws1 body ws2 p1 ws4 p2 ws5 ++ sufC1, 0) := by
  have hm := matchP1_bad2 ws1 body ws2 p1 ws4 p2 ws5 sufC1 hws1 hbq hws2 hp1 hp1ne
  have shape1 : bad2Site ws1 body ws2 p1 ws4 p2 ws5 ++ sufC1 =
      's' :: (qtail ++ (ws1 ++ (rq ++ (body ++ (cq ++ ([','] ++ (ws2 ++
        (p1 ++ ([','] ++ (ws4 ++ (p2 ++ (ws5 ++ (')' :: sufC1))))))))))))) := by
    simp [bad2Site, qlit_eq, List.append_assoc]
  rw [shape1] at hm
  have hTail : ∀ c ∈ qtail ++ (ws1 ++ (rq ++ (body ++ (cq ++ ([','] ++ (ws2 ++
      (p1 ++ ([','] ++ (ws4 ++ (p2 ++ (ws5 ++ (')' :: sufC1)))))))))))), c ≠ 's' := by
    simp only [List.forall_mem_append]
    exact ⟨by decide, fun c hc => isSpace_ne (hws1 c hc) (by decide), by decide,
      hbs, by decide, by decide, fun c hc => isSpace_ne (hws2 c hc) (by decide),
      hp1s, by decide, fun c hc => isSpace_ne (hws4 c hc) (by decide), hp2s,
      fun c hc => isSpace_ne (hws5 c hc) (by decide), by decide⟩
  have h1 : sub1 (preC1 ++ bad2Site ws1 body ws2 p1 ws4 p2 ws5 ++ sufC1) =
      preC1 ++ bad2Site ws1 body ws2 p1 ws4 p2 ws5 ++ sufC1 := by
    rw [List.append_assoc, sub1_append_ne _ _ (by decide), shape1,
      sub1_cons_none hm, sub1_all_ne _ hTail]
  have h2 : sub2 (preC1 ++ bad2Site ws1 body ws2 p1 ws4 p2 ws5 ++ sufC1) =
      preC1 ++ bad2Site ws1 body ws2 p1 ws4 p2 ws5 ++ sufC1 :=
    sub2_nomatch hstep2
  have hDot : ∀ c ∈ preC1 ++ bad2Site ws1 body ws2 p1 ws4 p2 ws5 ++ sufC1,
      c ≠ '.' := by
    simp only [bad2Site, List.append_assoc, List.forall_mem_append]
    exact ⟨by decide, by decide,
      fun c hc => isSpace_ne (hws1 c hc) (by decide), by decide, hbd, by decide,
      by decide, fun c hc => isSpace_ne (hws2 c hc) (by decide),
      fun c hc => isWord_ne (hp1 c hc) (by decide), by decide,
      fun c hc => isSpace_ne (hws4 c hc) (by decide),
      fun c hc => isWord_ne (hp2 c hc) (by decide),
      fun c hc => isSpace_ne (hws5 c hc) (by decide), by decide, by decide⟩
  have h3 : countBind (preC1 ++ bad2Site ws1 body ws2 p1 ws4 p2 ws5 ++ sufC1) = 0 :=
    countBind_dotfree hDot
  simp only [ fix_sqlx_syntax]
  rw [h1, h2, h3]

theorem claim_C5_witness :
    fix_sqlx_syntax (preC1 ++ bad2Site [] countBody [' '] ['a'] [' '] ['b'] []
        ++ sufC1) =
      (preC1 ++ bad2Site [] countBody [' '] ['a'] [' '] ['b'] [] ++ sufC1, 0) :=
  claim_C5 [] countBody [' '] ['a'] [' '] ['b'] []
    (by decide) (by decide) (by decide) (by decide) (by decide) (by decide)
    (by decide) (by decide) (by decide) (by decide) (by decide) (by decide)
    (by decide)

/-- A buffer with one well-formed call site and one pre-existing `.bind(`
occurrence. -/
def demoC6 : Str :=
  ['s', 'q', 'l', 'x', ':', ':', 'q', 'u', 'e', 'r', 'y', '(', 'r', '#', '"',
   'S', '"', '#', ',', ' ', 't', ')', '\n', 'q', '.', 'b', 'i', 'n', 'd', '(',
   'x', ')']

/-- C6: for every input buffer the reported count is exactly the number of
`.bind(` occurrences in the final output buffer after Steps 1 and 2 — it
counts the rewritten-to shape, not substitutions performed.  On `demoC6`,
whose single call site is rewritten but which already contained one
`.bind(`, the input holds one marker and the reported count is 2,
exceeding the one call site actually rewritten. -/
theorem claim_C6 :
    (∀ content : Str,
      ( fix_sqlx_syntax content).2 = countBind (( fix_sqlx_syntax content).1)) ∧
    countBind demoC6 = 1 ∧ ( fix_sqlx_syntax demoC6).2 = 2 :=
  ⟨fun _ => rfl, by decide, by decide⟩

/-- Separator between the two call sites of C7: `;\nlet b = `. -/
def midC7 : Str := [';', '\n', 'l', 'e', 't', ' ', 'b', ' ', '=', ' ']

/-- C7: a buffer with two well-formed, non-overlapping call sites has both
rewritten independently, left to right (the first match consumes its span
before scanning resumes after it), and the reported count is 2 (the
context contains no pre-existing `.bind(`). -/
theorem claim_C7 (ws1 body1 ws2 param1 ws3 ws4 body2 ws5 param2 ws6 : Str)
    (hws1 : ∀ c ∈ ws1, isSpace c = true)
    (hb1q : ∀ c ∈ body1, c ≠ '"')
    (hb1p : ∀ c ∈ body1, c ≠ ')')
    (hb1d : ∀ c ∈ body1, c ≠ '.')
    (hws2 : ∀ c ∈ ws2, isSpace c = true)
    (hparam1 : ∀ c ∈ param1, isWord c = true) (hp1ne : param1 ≠ [])
    (hws3 : ∀ c ∈ ws3, isSpace c = true)
    (hws4 : ∀ c ∈ ws4, isSpace c = true)
    (hb2q : ∀ c ∈ body2, c ≠ '"')
    (hb2p : ∀ c ∈ body2, c ≠ ')')
    (hb2d : ∀ c ∈ body2, c ≠ '.')
    (hws5 : ∀ c ∈ ws5, isSpace c = true)
    (hparam2 : ∀ c ∈ param2, isWord c = true) (hp2ne : param2 ≠ [])
    (hws6 : ∀ c ∈ ws6, isSpace c = true) :
    fix_sqlx_syntax (preC1 ++ siteStr ws1 body1 ws2 param1 ws3 ++ midC7 ++
        siteStr ws4 body2 ws5 param2 ws6 ++ sufC1) =
      (preC1 ++ rewSite ws1 body1 param1 ++ midC7 ++
        rewSite ws4 body2 param2 ++ sufC1, 2) := by
  have hm1 := matchP1_site ws1 body1 ws2 param1 ws3
    (midC7 ++ (siteStr ws4 body2 ws5 param2 ws6 ++ sufC1)) hws1 hb1q hws2
    hparam1 hp1ne hws3
  have hm2 := matchP1_site ws4 body2 ws5 param2 ws6 sufC1 hws4 hb2q hws5
    hparam2 hp2ne hws6
  have h1 : sub1 (preC1 ++ siteStr ws1 body1 ws2 param1 ws3 ++ midC7 ++
      siteStr ws4 body2 ws5 param2 ws6 ++ sufC1) =
      preC1 ++ rewSite ws1 body1 param1 ++ midC7 ++
        rewSite ws4 body2 param2 ++ sufC1 := by
    simp only [List.append_assoc]
    rw [sub1_append_ne _ _ (by decide), sub1_some hm1,
      sub1_append_ne _ _ (by decide), sub1_some hm2,
      sub1_all_ne sufC1 (by decide)]
    simp [rewSite, List.append_assoc]
  have hrest1 : matchP2 (')' :: (midC7 ++
      (rewSite ws4 body2 param2 ++ sufC1))) = none := by
    have := matchP2_rparen_stop
      (c := ';')
      (t := ['\n', 'l', 'e', 't', ' ', 'b', ' ', '=', ' '] ++
        (rewSite ws4 body2 param2 ++ sufC1)) (by decide)
    simpa [midC7] using this
  have h2 : sub2 (preC1 ++ rewSite ws1 body1 param1 ++ midC7 ++
      rewSite ws4 body2 param2 ++ sufC1) =
      preC1 ++ rewSite ws1 body1 param1 ++ midC7 ++
        rewSite ws4 body2 param2 ++ sufC1 := by
    simp only [List.append_assoc]
    rw [sub2_append_ne _ _ (by decide),
      sub2_skip_rew ws1 body1 param1 _ hws1 hb1p hparam1 hrest1,
      sub2_append_ne _ _ (by decide),
      sub2_skip_rew ws4 body2 param2 sufC1 hws4 hb2p hparam2
        (show matchP2 (')' :: sufC1) = none by decide),
      sub2_all_ne sufC1 (by decide)]
  have hA1 : ∀ c ∈ preC1 ++ (qlit ++ (ws1 ++ (rq ++ (body1 ++
      (cq ++ ([')', '\n'] ++ indentStr)))))), c ≠ '.' := by
    simp only [List.forall_mem_append]
    exact ⟨by decide, by decide, fun c hc => isSpace_ne (hws1 c hc) (by decide),
      by decide, hb1d, by decide, by decide, by decide⟩
  have hA2 : ∀ c ∈ param1 ++ ')' :: (midC7 ++ (qlit ++ (ws4 ++ (rq ++ (body2 ++
      (cq ++ ([')', '\n'] ++ indentStr))))))), c ≠ '.' := by
    simp only [List.forall_mem_append, List.forall_mem_cons]
    exact ⟨fun c hc => isWord_ne (hparam1 c hc) (by decide), by decide,
      by decide, by decide, fun c hc => isSpace_ne (hws4 c hc) (by decide),
      by decide, hb2d, by decide, by decide, by decide⟩
  have hB2 : ∀ c ∈ param2 ++ ')' :: sufC1, c ≠ '.' := by
    simp only [List.forall_mem_append]
    exact ⟨fun c hc => isWord_ne (hparam2 c hc) (by decide), by decide⟩
  have h3 : countBind (preC1 ++ rewSite ws1 body1 param1 ++ midC7 ++
      rewSite ws4 body2 param2 ++ sufC1) = 2 := by
    have shapeC : preC1 ++ rewSite ws1 body1 param1 ++ midC7 ++
        rewSite ws4 body2 param2 ++ sufC1 =
        (preC1 ++ (qlit ++ (ws1 ++ (rq ++ (body1 ++
          (cq ++ ([')', '\n'] ++ indentStr))))))) ++
          (bindPat ++ ((param1 ++ ')' :: (midC7 ++ (qlit ++ (ws4 ++ (rq ++
            (body2 ++ (cq ++ ([')', '\n'] ++ indentStr)))))))) ++
            (bindPat ++ (param2 ++ ')' :: sufC1)))) := by
      simp [rewSite, bindRepl, List.append_assoc]
    rw [shapeC, countBind_append_dotfree _ hA1, countBind_bindPat,
      countBind_append_dotfree _ hA2, countBind_bindPat,
      countBind_dotfree hB2]
  simp only [ fix_sqlx_syntax]
  rw [h1, h2, h3]

theorem claim_C7_witness :
    fix_sqlx_syntax (preC1 ++ siteStr [] ['S', '1'] [' '] ['t', 'a'] [] ++ midC7 ++
        siteStr [] ['S', '2'] [' '] ['t', 'b'] [] ++ sufC1) =
      (preC1 ++ rewSite [] ['S', '1'] ['t', 'a'] ++ midC7 ++
        rewSite [] ['S', '2'] ['t', 'b'] ++ sufC1, 2) :=
  claim_C7 [] ['S', '1'] [' '] ['t', 'a'] [] [] ['S', '2'] [' '] ['t', 'b'] []
    (by decide) (by decide) (by decide) (by decide) (by decide) (by decide)
    (by decide) (by decide) (by decide) (by decide) (by decide) (by decide)
    (by decide) (by decide) (by decide) (by decide)

/-- C8: the transformation is deterministic — a total function of the
input buffer alone.  Two runs on equal input buffers yield identical
output buffers and identical reported counts; the embedding has no other
inputs, mirroring the script's lack of randomness or external state. -/
theorem claim_C8 (s t : Str) (h : s = t) :
    fix_sqlx_syntax s = fix_sqlx_syntax t := by
  rw [h]

theorem claim_C8_witness :
    fix_sqlx_syntax ['a', 'b'] = fix_sqlx_syntax ['a', 'b'] :=
  claim_C8 ['a', 'b'] ['a', 'b'] rfl

/-- C9: on every run whose target file exists, the backup — the target
path with the fixed suffix appended — is written before the target is
mutated: in the state right after the copy, the backup holds an exact
copy of the original contents while the target is still untouched, and in
the final state the target holds the transformed buffer while the backup
still holds the original. -/
theorem claim_C9 (fs : FS) (c : Str) (h : fs targetPath = some c) :
    ∃ fs1 fs2, runMain fs = some (fs1, fs2) ∧
      fs1 backupPath = some c ∧
      fs1 targetPath = some c ∧
      fs2 backupPath = some c ∧
      fs2 targetPath = some ( fix_sqlx_syntax c).1 := by
  have hne : targetPath ≠ backupPath := by decide
  have hne' : backupPath ≠ targetPath := fun he => hne he.symm
  have hcopy : shutilCopy fs targetPath backupPath =
      some (fsWrite fs backupPath c) := by
    simp [shutilCopy, h]
  have hread : fsWrite fs backupPath c targetPath = some c := by
    simp [fsWrite, hne, h]
  have hfix : runFixFile (fsWrite fs backupPath c) targetPath =
      some (fsWrite (fsWrite fs backupPath c) targetPath
        ( fix_sqlx_syntax c).1) := by
    simp [runFixFile, hread]
  refine ⟨fsWrite fs backupPath c,
    fsWrite (fsWrite fs backupPath c) targetPath ( fix_sqlx_syntax c).1,
    ?_, ?_, ?_, ?_, ?_⟩
  · simp [runMain, hcopy, hfix]
  · simp [fsWrite]
  · simp [fsWrite, hne, h]
  · simp [fsWrite, hne']
  · simp [fsWrite]

theorem claim_C9_witness :
    ∃ fs1 fs2,
      runMain (fun p => if p = targetPath then some ['x'] else none) =
        some (fs1, fs2) ∧
      fs1 backupPath = some ['x'] ∧
      fs1 targetPath = some ['x'] ∧
      fs2 backupPath = some ['x'] ∧
      fs2 targetPath = some ( fix_sqlx_syntax ['x']).1 :=
  claim_C9 (fun p => if p = targetPath then some ['x'] else none) ['x'] (by simp)

/-- C10: Step 1 never rewrites a call site whose raw-string body contains
a double quote before the closing fence: the body class `[^"]*` stops at
the first `"`, and if that `"` is not followed by `#` (which is exactly
what "a quote occurs before the closing `"#` marker" means) the whole
pattern fails at this call site, and the call site is passed through
verbatim by the Step-1 substitution. -/
theorem claim_C10 (ws1 bodyA : Str) (d : Char) (tail : Str)
    (hws1 : ∀ c ∈ ws1, isSpace c = true)
    (hbq : ∀ c ∈ bodyA, c ≠ '"')
    (hbs : ∀ c ∈ bodyA, c ≠ 's')
    (hd : d ≠ '#') (hds : d ≠ 's')
    (htail : ∀ c ∈ tail, c ≠ 's') :
    matchP1 (qlit ++ ws1 ++ rq ++ bodyA ++ '"' :: d :: tail) = none ∧
    sub1 (qlit ++ ws1 ++ rq ++ bodyA ++ '"' :: d :: tail) =
      qlit ++ ws1 ++ rq ++ bodyA ++ '"' :: d :: tail := by
  have e1 : matchLit qlit (qlit ++ ws1 ++ rq ++ bodyA ++ '"' :: d :: tail) =
      some (ws1 ++ 'r' :: '#' :: '"' :: (bodyA ++ '"' :: d :: tail)) := by
    have := matchLit_self_append qlit
      (ws1 ++ 'r' :: '#' :: '"' :: (bodyA ++ '"' :: d :: tail))
    calc matchLit qlit (qlit ++ ws1 ++ rq ++ bodyA ++ '"' :: d :: tail)
        = matchLit qlit
            (qlit ++ (ws1 ++ 'r' :: '#' :: '"' :: (bodyA ++ '"' :: d :: tail))) := by
          simp [rq, List.append_assoc]
      _ = some (ws1 ++ 'r' :: '#' :: '"' :: (bodyA ++ '"' :: d :: tail)) := this
  have e2 : (ws1 ++ 'r' :: '#' :: '"' :: (bodyA ++ '"' :: d :: tail)).takeWhile
      isSpace = ws1 :=
    takeWhile_all_stop isSpace ws1 'r' _ hws1 (by decide)
  have e3 : (ws1 ++ 'r' :: '#' :: '"' :: (bodyA ++ '"' :: d :: tail)).dropWhile
      isSpace = 'r' :: '#' :: '"' :: (bodyA ++ '"' :: d :: tail) :=
    dropWhile_all_stop isSpace ws1 'r' _ hws1 (by decide)
  have e4 : matchLit rq ('r' :: '#' :: '"' :: (bodyA ++ '"' :: d :: tail)) =
      some (bodyA ++ '"' :: d :: tail) := by
    have := matchLit_self_append rq (bodyA ++ '"' :: d :: tail)
    simpa [rq] using this
  have hbq' : ∀ c ∈ bodyA, (c != '"') = true := by
    intro c hc
    simpa using hbq c hc
  have e5 : (bodyA ++ '"' :: d :: tail).takeWhile (fun c => c != '"') = bodyA :=
    takeWhile_all_stop _ bodyA '"' _ hbq' (by decide)
  have e6 : (bodyA ++ '"' :: d :: tail).dropWhile (fun c => c != '"') =
      '"' :: d :: tail :=
    dropWhile_all_stop _ bodyA '"' _ hbq' (by decide)
  have e7 : matchLit cq ('"' :: d :: tail) = none := by
    have hdd : ('#' : Char) ≠ d := fun he => hd he.symm
    simp [cq, matchLit, hdd]
  have hnone : matchP1 (qlit ++ ws1 ++ rq ++ bodyA ++ '"' :: d :: tail) = none := by
    simp only [matchP1, e1, e2, e3, e4, e5, e6, e7]
  refine ⟨hnone, ?_⟩
  have shape : qlit ++ ws1 ++ rq ++ bodyA ++ '"' :: d :: tail =
      's' :: (qtail ++ (ws1 ++ ('r' :: '#' :: '"' ::
        (bodyA ++ '"' :: d :: tail)))) := by
    simp [qlit_eq, qtail, rq, List.append_assoc]
  have hTail : ∀ c ∈ qtail ++ (ws1 ++ ('r' :: '#' :: '"' ::
      (bodyA ++ '"' :: d :: tail))), c ≠ 's' := by
    simp only [List.forall_mem_append, List.forall_mem_cons]
    exact ⟨by decide, fun c hc => isSpace_ne (hws1 c hc) (by decide),
      by decide, by decide, by decide, hbs, by decide, hds, htail⟩
  rw [shape] at hnone ⊢
  rw [sub1_cons_none hnone, sub1_all_ne _ hTail]

theorem claim_C10_witness :
    matchP1 (qlit ++ [] ++ rq ++ ['a', ' '] ++ '"' :: ' ' ::
        ['y', '"', '#', ',', ' ', 't', ')']) = none ∧
    sub1 (qlit ++ [] ++ rq ++ ['a', ' '] ++ '"' :: ' ' ::
        ['y', '"', '#', ',', ' ', 't', ')']) =
      qlit ++ [] ++ rq ++ ['a', ' '] ++ '"' :: ' ' ::
        ['y', '"', '#', ',', ' ', 't', ')'] :=
  claim_C10 [] ['a', ' '] ' ' ['y', '"', '#', ',', ' ', 't', ')']
    (by decide) (by decide) (by decide) (by decide) (by decide) (by decide)
